import Mathlib

/-
Formal model of the Natural Questions evaluation-data pipeline:
a dataset sampler (`prepare_nq_data.py`, function `prepare_natural_questions`)
and a batch ingestor (`ingest_nq_data.py`, function `ingest_chunks`).

The Python `random` module's global generator is modelled by a state type
`RState` together with `seedFn : Nat → RState` (the effect of `random.seed`)
and `sampleFn : RState → Nat → Nat → List Nat` (the value of
`random.sample(range(total), k)` in that state).  `random.seed` overwrites
whatever generator state existed before the call, so the sampler receives the
pre-existing state as an explicit `preState` argument that the code never
reads.  Python's `list.sort()` on integers is modelled by
`List.insertionSort (· ≤ ·)` (any stable comparison sort).
-/

/-- One row of the input CSV, as produced by `csv.DictReader`:
the fields the script reads are `question`, `long_answers`, `short_answers`. -/
structure SourceRecord where
  question : String
  long_answers : String
  short_answers : String
  deriving DecidableEq, Inhabited

/-- The `metadata` object attached to a chunk by the sampler:
keys `question` and `short_answer`. -/
structure ChunkMetadata where
  question : String
  short_answer : String
  deriving DecidableEq, Inhabited

/-- One element of the output JSON array written by the sampler. -/
structure Chunk where
  chunk_id : String
  document_id : String
  content : String
  metadata : ChunkMetadata
  deriving DecidableEq, Inhabited

/-- Python's format directive `%06d` (as used in the f-string `nq_{i:06d}`):
the decimal digits of `n`, left-padded with zeros to a minimum width. -/
def zeroPad (width : Nat) (n : Nat) : String :=
  let s := toString n
  String.mk (List.replicate (width - s.length) '0') ++ s

/-- The chunk dictionary built for the row at output position `i`
(lines 39-47 of `prepare_nq_data.py`). -/
def mkChunk (i : Nat) (row : SourceRecord) : Chunk :=
  { chunk_id := "nq_" ++ zeroPad 6 i
    document_id := "natural_questions"
    content := row.long_answers
    metadata := { question := row.question, short_answer := row.short_answers } }

/-- The loop `for i, row in enumerate(selected_rows): chunks.append(...)`,
started at index `i`. -/
def toChunks : Nat → List SourceRecord → List Chunk
  | _, [] => []
  | i, row :: rest => mkChunk i row :: toChunks (i + 1) rest

/-- The row-selection phase of `prepare_natural_questions`
(lines 26-34): if `sample_size` is truthy (not `None`, not `0`) and below the
total row count, seed the generator, draw `sample_size` indices, sort them
ascending, and index the row list with them; otherwise use every row. -/
def selected_rows {RState : Type} (seedFn : Nat → RState)
    (sampleFn : RState → Nat → Nat → List Nat)
    (all_rows : List SourceRecord) (sample_size : Option Nat) (random_seed : Nat) :
    List SourceRecord :=
  let total_available := all_rows.length
  match sample_size with
  | none => all_rows
  | some k =>
      if k ≠ 0 ∧ k < total_available then
        let st := seedFn random_seed
        let selected_indices := (sampleFn st total_available k).insertionSort (· ≤ ·)
        selected_indices.filterMap (fun i => all_rows[i]?)
      else
        all_rows

/-- `prepare_natural_questions` up to serialization: the chunk list the
sampler builds from the rows of `input_csv`.  `preState` is the state of the
global random generator before the call; the code calls
`random.seed(random_seed)` before sampling, so `preState` is discarded. -/
def prepare_natural_questions {RState : Type} (seedFn : Nat → RState)
    (sampleFn : RState → Nat → Nat → List Nat) (preState : RState)
    (all_rows : List SourceRecord) (sample_size : Option Nat) (random_seed : Nat) :
    List Chunk :=
  toChunks 0 (selected_rows seedFn sampleFn all_rows sample_size random_seed)

/-- Lower-case hexadecimal digit, as produced by Python's json escaping. -/
def hexDigit (n : Nat) : Char :=
  if n < 10 then Char.ofNat (48 + n) else Char.ofNat (87 + n)

/-- JSON string escaping with `ensure_ascii=False`: only the quote, the
backslash and control characters are escaped; everything else is copied. -/
def jsonEscapeChar (c : Char) : String :=
  if c = Char.ofNat 34 then "\\\""
  else if c = Char.ofNat 92 then "\\\\"
  else if c = Char.ofNat 10 then "\\n"
  else if c = Char.ofNat 9 then "\\t"
  else if c = Char.ofNat 13 then "\\r"
  else if c = Char.ofNat 8 then "\\b"
  else if c = Char.ofNat 12 then "\\f"
  else if c.toNat < 32 then
    "\\u00" ++ String.mk [hexDigit (c.toNat / 16), hexDigit (c.toNat % 16)]
  else String.mk [c]

/-- A JSON string literal for `s`. -/
def jsonString (s : String) : String :=
  "\"" ++ String.join (s.toList.map jsonEscapeChar) ++ "\""

/-- One chunk object as serialized by `json.dump(chunks, f, indent=2,
ensure_ascii=False)`, at nesting depth 1. -/
def dumpChunk (c : Chunk) : String :=
  "  \x7b\n" ++
  "    \"chunk_id\": " ++ jsonString c.chunk_id ++ ",\n" ++
  "    \"document_id\": " ++ jsonString c.document_id ++ ",\n" ++
  "    \"content\": " ++ jsonString c.content ++ ",\n" ++
  "    \"metadata\": \x7b\n" ++
  "      \"question\": " ++ jsonString c.metadata.question ++ ",\n" ++
  "      \"short_answer\": " ++ jsonString c.metadata.short_answer ++ "\n" ++
  "    \x7d\n" ++
  "  \x7d"

/-- The bytes `json.dump(chunks, f, indent=2, ensure_ascii=False)` writes
to the output file. -/
def dumpChunks (cs : List Chunk) : String :=
  match cs with
  | [] => "[]"
  | _ => "[\n" ++ String.intercalate ",\n" (cs.map dumpChunk) ++ "\n]"

theorem toChunks_length (i : Nat) (rows : List SourceRecord) :
    (toChunks i rows).length = rows.length := by
  induction rows generalizing i with
  | nil => rfl
  | cons r rs ih => simp [toChunks, ih]

theorem toChunks_getElem? (i j : Nat) (rows : List SourceRecord) :
    (toChunks i rows)[j]? = (rows[j]?).map (fun r => mkChunk (i + j) r) := by
  induction rows generalizing i j with
  | nil => simp [toChunks]
  | cons r rs ih =>
      cases j with
      | zero => simp [toChunks]
      | succ j =>
          simp only [toChunks, List.getElem?_cons_succ, ih (i + 1) j]
          have : i + 1 + j = i + (j + 1) := by omega
          rw [this]

theorem toChunks_map_content (i : Nat) (rows : List SourceRecord) :
    (toChunks i rows).map Chunk.content = rows.map SourceRecord.long_answers := by
  induction rows generalizing i with
  | nil => rfl
  | cons r rs ih => simp [toChunks, mkChunk, ih]

/-- A sample record used to instantiate theorems at concrete inputs. -/
def wrec : SourceRecord :=
  { question := "who wrote it", long_answers := "the author wrote it", short_answers := "the author" }

/-- A second sample record. -/
def wrec2 : SourceRecord :=
  { question := "when was it", long_answers := "in 1906", short_answers := "1906" }

/-- A third sample record. -/
def wrec3 : SourceRecord :=
  { question := "where was it", long_answers := "in the north", short_answers := "north" }

/-- C2: at every output position `i`, the chunk's `chunk_id` is the prefix
`nq_` followed by `i` zero-padded to (minimum) width 6, so the ids are
strictly increasing and contiguous from 0 in output order. -/
theorem chunk_ids_contiguous {RState : Type} (seedFn : Nat → RState)
    (sampleFn : RState → Nat → Nat → List Nat) (preState : RState)
    (all_rows : List SourceRecord) (sample_size : Option Nat) (random_seed : Nat)
    (i : Nat) (c : Chunk)
    (h : (prepare_natural_questions seedFn sampleFn preState all_rows sample_size random_seed)[i]? = some c) :
    c.chunk_id = "nq_" ++ zeroPad 6 i := by
  unfold prepare_natural_questions at h
  rw [toChunks_getElem?] at h
  rcases Option.map_eq_some'.mp h with ⟨r, _, hc⟩
  rw [← hc]
  simp [mkChunk]

/-- Witness for C2 at a concrete run. -/
theorem chunk_ids_contiguous_witness :
    (mkChunk 0 wrec).chunk_id = "nq_" ++ zeroPad 6 0 :=
  chunk_ids_contiguous (fun _ => ()) (fun _ _ _ => []) () [wrec] none 42 0
    (mkChunk 0 wrec) (by decide)

/-- C3: when `sample_size` is `None` or at least the number of rows, the
sampler uses every row: the output is one chunk per input row, in the
original row order. -/
theorem fallback_all_rows {RState : Type} (seedFn : Nat → RState)
    (sampleFn : RState → Nat → Nat → List Nat) (preState : RState)
    (all_rows : List SourceRecord) (sample_size : Option Nat) (random_seed : Nat)
    (h : sample_size = none ∨ ∃ k, sample_size = some k ∧ all_rows.length ≤ k) :
    prepare_natural_questions seedFn sampleFn preState all_rows sample_size random_seed
      = toChunks 0 all_rows ∧
    (prepare_natural_questions seedFn sampleFn preState all_rows sample_size random_seed).length
      = all_rows.length ∧
    ∀ i : Nat,
      (prepare_natural_questions seedFn sampleFn preState all_rows sample_size random_seed)[i]?
        = (all_rows[i]?).map (fun r => mkChunk i r) := by
  have hsel : selected_rows seedFn sampleFn all_rows sample_size random_seed = all_rows := by
    rcases h with h | ⟨k, hk, hge⟩
    · rw [h]; rfl
    · rw [hk]
      unfold selected_rows
      have : ¬(k ≠ 0 ∧ k < all_rows.length) := by omega
      simp only [this, if_false]
  unfold prepare_natural_questions
  rw [hsel]
  refine ⟨rfl, toChunks_length 0 all_rows, fun i => ?_⟩
  rw [toChunks_getElem?]
  simp

/-- Witness for C3 at a concrete run. -/
theorem fallback_all_rows_witness :
    prepare_natural_questions (fun _ => ()) (fun _ _ _ => []) () [wrec, wrec2] (some 5) 42
      = toChunks 0 [wrec, wrec2] ∧
    (prepare_natural_questions (fun _ => ()) (fun _ _ _ => []) () [wrec, wrec2] (some 5) 42).length
      = ([wrec, wrec2] : List SourceRecord).length ∧
    ∀ i : Nat,
      (prepare_natural_questions (fun _ => ()) (fun _ _ _ => []) () [wrec, wrec2] (some 5) 42)[i]?
        = (([wrec, wrec2] : List SourceRecord)[i]?).map (fun r => mkChunk i r) :=
  fallback_all_rows (fun _ => ()) (fun _ _ _ => []) () [wrec, wrec2] (some 5) 42
    (Or.inr ⟨5, rfl, by decide⟩)

/-- C5: every chunk carries the fields of the selected record it was built
from: `content` is the record's `long_answers`, `metadata.question` its
`question`, `metadata.short_answer` its `short_answers`, and `document_id`
is the fixed constant `natural_questions`. -/
theorem chunk_fields_from_record {RState : Type} (seedFn : Nat → RState)
    (sampleFn : RState → Nat → Nat → List Nat) (preState : RState)
    (all_rows : List SourceRecord) (sample_size : Option Nat) (random_seed : Nat)
    (i : Nat) (r : SourceRecord)
    (h : (selected_rows seedFn sampleFn all_rows sample_size random_seed)[i]? = some r) :
    ∃ c : Chunk,
      (prepare_natural_questions seedFn sampleFn preState all_rows sample_size random_seed)[i]?
          = some c ∧
        c.content = r.long_answers ∧
        c.metadata.question = r.question ∧
        c.metadata.short_answer = r.short_answers ∧
        c.document_id = "natural_questions" := by
  refine ⟨mkChunk i r, ?_, rfl, rfl, rfl, rfl⟩
  unfold prepare_natural_questions
  rw [toChunks_getElem?, h]
  simp

/-- Witness for C5 at a concrete run. -/
theorem chunk_fields_from_record_witness :
    ∃ c : Chunk,
      (prepare_natural_questions (fun _ => ()) (fun _ _ _ => []) () [wrec] none 7)[0]? = some c ∧
        c.content = wrec.long_answers ∧
        c.metadata.question = wrec.question ∧
        c.metadata.short_answer = wrec.short_answers ∧
        c.document_id = "natural_questions" :=
  chunk_fields_from_record (fun _ => ()) (fun _ _ _ => []) () [wrec] none 7 0 wrec (by decide)

theorem filterMap_getElem_of_bounds (rows : List SourceRecord) (idxs : List Nat)
    (h : ∀ i ∈ idxs, i < rows.length) :
    idxs.filterMap (fun i => rows[i]?) = idxs.map (fun i => rows.getD i default) := by
  induction idxs with
  | nil => rfl
  | cons a as ih =>
      have ha : a < rows.length := h a (List.mem_cons_self a as)
      have hrest : ∀ i ∈ as, i < rows.length := fun i hi => h i (List.mem_cons_of_mem a hi)
      simp only [List.filterMap_cons, List.map_cons, List.getElem?_eq_getElem ha, ih hrest]
      rw [List.getD_eq_getElem rows default ha]

/-- C1: the sampler is deterministic: for a fixed input row list, sample
size and seed, the serialized chunk document is independent of the state
the global random generator was in before the run, because `random.seed`
overwrites it; two independent runs therefore write byte-identical
documents. -/
theorem sampler_deterministic {RState : Type} (seedFn : Nat → RState)
    (sampleFn : RState → Nat → Nat → List Nat) (preState1 preState2 : RState)
    (all_rows : List SourceRecord) (sample_size : Option Nat) (random_seed : Nat) :
    dumpChunks (prepare_natural_questions seedFn sampleFn preState1 all_rows sample_size random_seed)
      = dumpChunks (prepare_natural_questions seedFn sampleFn preState2 all_rows sample_size random_seed) :=
  rfl

/-- C4: with `0 < k <` the row count and `random.sample` returning `k`
distinct in-range indices, the output has exactly `k` chunks, built from a
duplicate-free ascending index list, each chunk's content being the
`long_answers` field of a distinct input row. -/
theorem sample_subset {RState : Type} (seedFn : Nat → RState)
    (sampleFn : RState → Nat → Nat → List Nat) (preState : RState)
    (all_rows : List SourceRecord) (k random_seed : Nat)
    (h0 : 0 < k) (hk : k < all_rows.length)
    (hlen : (sampleFn (seedFn random_seed) all_rows.length k).length = k)
    (hnd : (sampleFn (seedFn random_seed) all_rows.length k).Nodup)
    (hval : ∀ i ∈ sampleFn (seedFn random_seed) all_rows.length k, i < all_rows.length) :
    (prepare_natural_questions seedFn sampleFn preState all_rows (some k) random_seed).length = k ∧
    ∃ idxs : List Nat,
      idxs.length = k ∧ idxs.Nodup ∧ List.Sorted (· < ·) idxs ∧
      (∀ i ∈ idxs, i < all_rows.length) ∧
      (prepare_natural_questions seedFn sampleFn preState all_rows (some k) random_seed).map Chunk.content
        = idxs.map (fun i => (all_rows.getD i default).long_answers) := by
  set raw := sampleFn (seedFn random_seed) all_rows.length k with hraw
  set idxs := raw.insertionSort (· ≤ ·) with hidxs
  have hperm : List.Perm idxs raw := List.perm_insertionSort (· ≤ ·) raw
  have hlen2 : idxs.length = k := hperm.length_eq.trans hlen
  have hnd2 : idxs.Nodup := hperm.symm.nodup hnd
  have hle : List.Sorted (· ≤ ·) idxs := List.sorted_insertionSort (· ≤ ·) raw
  have hlt : List.Sorted (· < ·) idxs := hle.lt_of_le hnd2
  have hval2 : ∀ i ∈ idxs, i < all_rows.length := fun i hi => hval i (hperm.subset hi)
  have hselect :
      selected_rows seedFn sampleFn all_rows (some k) random_seed
        = idxs.map (fun i => all_rows.getD i default) := by
    unfold selected_rows
    dsimp only
    have hcond : k ≠ 0 ∧ k < all_rows.length := ⟨Nat.pos_iff_ne_zero.mp h0, hk⟩
    rw [if_pos hcond]
    exact filterMap_getElem_of_bounds all_rows idxs hval2
  constructor
  · unfold prepare_natural_questions
    rw [toChunks_length, hselect, List.length_map, hlen2]
  · refine ⟨idxs, hlen2, hnd2, hlt, hval2, ?_⟩
    unfold prepare_natural_questions
    rw [toChunks_map_content, hselect, List.map_map]
    rfl

/-- Witness for C4 at a concrete run: three rows, `k = 2`, a sample
function returning the first `k` indices. -/
theorem sample_subset_witness :
    (prepare_natural_questions (fun _ => ()) (fun _ n k => (List.range n).take k) ()
        [wrec, wrec2, wrec3] (some 2) 42).length = 2 ∧
    ∃ idxs : List Nat,
      idxs.length = 2 ∧ idxs.Nodup ∧ List.Sorted (· < ·) idxs ∧
      (∀ i ∈ idxs, i < ([wrec, wrec2, wrec3] : List SourceRecord).length) ∧
      (prepare_natural_questions (fun _ => ()) (fun _ n k => (List.range n).take k) ()
          [wrec, wrec2, wrec3] (some 2) 42).map Chunk.content
        = idxs.map (fun i => (([wrec, wrec2, wrec3] : List SourceRecord).getD i default).long_answers) :=
  sample_subset (fun _ => ()) (fun _ n k => (List.range n).take k) ()
    [wrec, wrec2, wrec3] 2 42 (by decide) (by decide) (by decide) (by decide)
    (by decide)

/-
Batch ingestor (`ingest_nq_data.py`, function `ingest_chunks`).  The
external world is an `IngestEnv`: `tmpPath i` is the name
`tempfile.NamedTemporaryFile` hands out in iteration `i`, and `invoke i` is
the behaviour of the `subprocess.run` call in iteration `i` (an exit with a
return code and captured stderr, or a raised exception).  The filesystem is
modelled as the characteristic function of the set of existing paths.
-/

/-- Outcome of one `subprocess.run` call: a normal exit carrying the return
code and captured stderr, or a raised exception. -/
inductive InvokeResult
  | exited (returncode : Nat) (stderr : String)
  | raised (msg : String)
  deriving DecidableEq

/-- The ingestor's external collaborators, per iteration index. -/
structure IngestEnv where
  tmpPath : Nat → String
  invoke : Nat → InvokeResult

/-- Observable state of an ingestor run: which paths exist on the
filesystem, the subprocess invocations issued so far, and the lines
printed so far. -/
structure IngestState where
  fs : String → Bool
  commands : List (List String)
  printed : List String

/-- `json.dumps` of a string-to-string object, in key order. -/
def metadataJson (pairs : List (String × String)) : String :=
  "\x7b" ++ String.intercalate ", "
    (pairs.map (fun p => jsonString p.1 ++ ": " ++ jsonString p.2)) ++ "\x7d"

/-- The `customMetadata` dictionary built for a chunk (lines 25-28 of
`ingest_nq_data.py`): the `question` value is passed through under the key
`question`, the `short_answer` value is passed under the key `shortAnswer`. -/
def customMetadataOf (c : Chunk) : List (String × String) :=
  [("question", c.metadata.question), ("shortAnswer", c.metadata.short_answer)]

/-- The argument vector of the `subprocess.run` call (lines 30-37). -/
def ingestCommand (tmp_path : String) (c : Chunk) : List String :=
  ["go", "run", "cmd/ingest/main.go",
   "-insert-doc",
   "-filePath", tmp_path,
   "-chunkSize", "20000",
   "-chunkOverlap", "0",
   "-customMetadata", metadataJson (customMetadataOf c)]

/-- The progress line `Ingested {k}/{total} chunks...`. -/
def progressLine (k total : Nat) : String :=
  "Ingested " ++ toString k ++ "/" ++ toString total ++ " chunks..."

/-- The error line `Error ingesting chunk {chunk_id}: {stderr}`. -/
def errorLine (chunk_id stderr : String) : String :=
  "Error ingesting chunk " ++ chunk_id ++ ": " ++ stderr

/-- The completion line `Ingestion complete: {total} chunks`. -/
def summaryLine (total : Nat) : String :=
  "Ingestion complete: " ++ toString total ++ " chunks"

/-- Effect of creating (and writing) a file at `p`. -/
def createFile (fs : String → Bool) (p : String) : String → Bool :=
  fun q => if q = p then true else fs q

/-- Effect of `os.unlink p`. -/
def unlinkFile (fs : String → Bool) (p : String) : String → Bool :=
  fun q => if q = p then false else fs q

/-- One iteration of the `for i, chunk in enumerate(chunks)` loop
(lines 18-47): create the temporary file, run the subprocess inside
`try`, print a progress or error line according to the return code, and
unlink the temporary file in the `finally` block.  Returns the new state
and `some msg` when the iteration re-raises an exception. -/
def ingestStep (env : IngestEnv) (total i : Nat) (c : Chunk) (st : IngestState) :
    IngestState × Option String :=
  let tmp_path := env.tmpPath i
  let fs1 := createFile st.fs tmp_path
  let cmd := ingestCommand tmp_path c
  match env.invoke i with
  | InvokeResult.raised msg =>
      ({ fs := unlinkFile fs1 tmp_path,
         commands := st.commands ++ [cmd],
         printed := st.printed }, some msg)
  | InvokeResult.exited rc stderr =>
      let printed2 :=
        if rc = 0 then
          if (i + 1) % 100 = 0 then st.printed ++ [progressLine (i + 1) total]
          else st.printed
        else st.printed ++ [errorLine c.chunk_id stderr]
      ({ fs := unlinkFile fs1 tmp_path,
         commands := st.commands ++ [cmd],
         printed := printed2 }, none)

/-- The chunk loop from iteration index `i` on; stops early only when an
iteration re-raises. -/
def ingestLoop (env : IngestEnv) (total : Nat) :
    Nat → List Chunk → IngestState → IngestState × Option String
  | _, [], st => (st, none)
  | i, c :: cs, st =>
      match ingestStep env total i c st with
      | (st2, none) => ingestLoop env total (i + 1) cs st2
      | (st2, some e) => (st2, some e)

/-- State at the start of a run. -/
def initState : IngestState :=
  { fs := fun _ => false, commands := [], printed := [] }

/-- `ingest_chunks`: run the loop over the whole chunk list, then print the
completion summary (line 49). -/
def ingest_chunks (env : IngestEnv) (chunks : List Chunk) : IngestState × Option String :=
  match ingestLoop env chunks.length 0 chunks initState with
  | (st, none) =>
      ({ st with printed := st.printed ++ [summaryLine chunks.length] }, none)
  | (st, some e) => (st, some e)

/-- C6: each iteration issues exactly one invocation, whose argument
vector fixes chunk size 20000 and chunk overlap 0, and whose metadata
payload has exactly the keys `question` and `shortAnswer`, with the
`shortAnswer` value taken from the chunk's `short_answer` metadata entry. -/
theorem invocation_parameters (env : IngestEnv) (total i : Nat) (c : Chunk)
    (st : IngestState) :
    (ingestStep env total i c st).1.commands
        = st.commands ++ [ingestCommand (env.tmpPath i) c] ∧
    (customMetadataOf c).map Prod.fst = ["question", "shortAnswer"] ∧
    (customMetadataOf c).lookup "shortAnswer" = some c.metadata.short_answer ∧
    ∃ s t : List String,
      s ++ ["-chunkSize", "20000", "-chunkOverlap", "0"] ++ t
        = ingestCommand (env.tmpPath i) c := by
  refine ⟨?_, rfl, rfl, ⟨["go", "run", "cmd/ingest/main.go", "-insert-doc", "-filePath", env.tmpPath i], ["-customMetadata", metadataJson (customMetadataOf c)], rfl⟩⟩
  unfold ingestStep
  cases env.invoke i <;> rfl

/-- C7: after an iteration finishes, the temporary path used by that
iteration does not exist, whatever the subprocess call did (success,
non-zero exit, or raised exception): the `finally` block unlinks it. -/
theorem tmp_file_removed (env : IngestEnv) (total i : Nat) (c : Chunk)
    (st : IngestState) :
    (ingestStep env total i c st).1.fs (env.tmpPath i) = false := by
  unfold ingestStep
  cases env.invoke i <;> simp [unlinkFile]

/-- The invocations a full run issues: one per chunk, in order, each with
that iteration's temporary path. -/
def expectedCommands (env : IngestEnv) : Nat → List Chunk → List (List String)
  | _, [] => []
  | i, c :: cs => ingestCommand (env.tmpPath i) c :: expectedCommands env (i + 1) cs

theorem ingestStep_exited (env : IngestEnv) (total i : Nat) (c : Chunk)
    (st : IngestState) (rc : Nat) (stderr : String)
    (hinv : env.invoke i = InvokeResult.exited rc stderr) :
    (ingestStep env total i c st).2 = none ∧
    (ingestStep env total i c st).1.commands
      = st.commands ++ [ingestCommand (env.tmpPath i) c] := by
  unfold ingestStep
  rw [hinv]
  exact ⟨rfl, rfl⟩

theorem ingestLoop_all_exited (env : IngestEnv) (total : Nat) (cs : List Chunk) :
    ∀ (i : Nat) (st : IngestState),
      (∀ j : Nat, ∃ rc stderr, env.invoke j = InvokeResult.exited rc stderr) →
      (ingestLoop env total i cs st).2 = none ∧
      (ingestLoop env total i cs st).1.commands = st.commands ++ expectedCommands env i cs := by
  induction cs with
  | nil => intro i st _; exact ⟨rfl, by simp [ingestLoop, expectedCommands]⟩
  | cons c cs ih =>
      intro i st h
      obtain ⟨rc, stderr, hinv⟩ := h i
      obtain ⟨hsnd, hcmd⟩ := ingestStep_exited env total i c st rc stderr hinv
      rcases hs : ingestStep env total i c st with ⟨st2, e⟩
      rw [hs] at hsnd hcmd
      simp only at hsnd hcmd
      subst hsnd
      have hred : ingestLoop env total i (c :: cs) st = ingestLoop env total (i + 1) cs st2 := by
        conv_lhs => rw [ingestLoop]
        rw [hs]
      rw [hred]
      obtain ⟨h1, h2⟩ := ih (i + 1) st2 h
      refine ⟨h1, ?_⟩
      rw [h2, hcmd, expectedCommands, List.append_assoc]
      rfl

/-- C8: when every subprocess call exits (with any return code, zero or
not), no iteration aborts the run: every chunk gets its own invocation, in
order, and the run ends by printing the completion summary with the total
chunk count. -/
theorem fault_tolerance (env : IngestEnv) (chunks : List Chunk)
    (h : ∀ j : Nat, ∃ rc stderr, env.invoke j = InvokeResult.exited rc stderr) :
    (ingest_chunks env chunks).2 = none ∧
    (ingest_chunks env chunks).1.commands = expectedCommands env 0 chunks ∧
    (ingest_chunks env chunks).1.printed.getLast? = some (summaryLine chunks.length) := by
  obtain ⟨h1, h2⟩ := ingestLoop_all_exited env chunks.length chunks 0 initState h
  rcases hl : ingestLoop env chunks.length 0 chunks initState with ⟨st, e⟩
  rw [hl] at h1 h2
  simp only at h1 h2
  subst h1
  have hred : ingest_chunks env chunks
      = ({ st with printed := st.printed ++ [summaryLine chunks.length] }, none) := by
    unfold ingest_chunks
    rw [hl]
  rw [hred]
  refine ⟨rfl, ?_, ?_⟩
  · simpa [initState] using h2
  · simp

/-- Environment used to instantiate ingestor theorems: the call for chunk 0
exits with status 1, every later call exits with status 0. -/
def wEnv : IngestEnv :=
  { tmpPath := fun i => "/tmp/chunk" ++ toString i ++ ".txt",
    invoke := fun j => InvokeResult.exited (if j = 0 then 1 else 0) "boom" }

/-- A concrete chunk for instantiating ingestor theorems. -/
def wchunk : Chunk := mkChunk 0 wrec

/-- A second concrete chunk. -/
def wchunk2 : Chunk := mkChunk 1 wrec2

/-- Witness for C8: a two-chunk run whose first invocation fails with a
non-zero exit still invokes the second chunk and prints the summary. -/
theorem fault_tolerance_witness :
    (ingest_chunks wEnv [wchunk, wchunk2]).2 = none ∧
    (ingest_chunks wEnv [wchunk, wchunk2]).1.commands
      = expectedCommands wEnv 0 [wchunk, wchunk2] ∧
    (ingest_chunks wEnv [wchunk, wchunk2]).1.printed.getLast?
      = some (summaryLine ([wchunk, wchunk2] : List Chunk).length) :=
  fault_tolerance wEnv [wchunk, wchunk2]
    (fun j => ⟨if j = 0 then 1 else 0, "boom", rfl⟩)

/-- Number of the first `n` subprocess calls that exit with status 0. -/
def successTotal (env : IngestEnv) (n : Nat) : Nat :=
  ((List.range n).filter (fun j =>
    match env.invoke j with
    | InvokeResult.exited 0 _ => true
    | _ => false)).length

/-- C9 counterexample: in a 100-chunk run whose first invocation fails and
whose remaining 99 invocations succeed, the run prints the line
`Ingested 100/100 chunks...` even though only 99 invocations in the whole
run succeed; so the printed count is not a success count and the line is
not emitted at a 100th success (none exists). -/
theorem progress_line_not_success_count :
    progressLine 100 100 ∈ ((ingest_chunks wEnv (List.replicate 100 wchunk)).1).printed ∧
    successTotal wEnv 100 = 99 := by
  constructor
  · decide
  · decide

/-- C9 (amended): the code keeps no success counter; when the invocation
for the chunk at zero-based position `i` exits, a progress line
`Ingested {i+1}/{total} chunks...` is printed exactly when the exit status
is 0 and `i + 1` (the number of chunks attempted so far, successes and
failures alike) is a multiple of 100; a non-zero exit prints the error
line instead. -/
theorem progress_on_attempt_index (env : IngestEnv) (total i : Nat) (c : Chunk)
    (st : IngestState) (rc : Nat) (stderr : String)
    (hinv : env.invoke i = InvokeResult.exited rc stderr) :
    (ingestStep env total i c st).1.printed =
      st.printed ++
        (if rc = 0 then
           (if (i + 1) % 100 = 0 then [progressLine (i + 1) total] else [])
         else [errorLine c.chunk_id stderr]) := by
  unfold ingestStep
  rw [hinv]
  dsimp only
  split_ifs <;> simp

/-- An environment whose every invocation succeeds. -/
def wEnvOk : IngestEnv :=
  { tmpPath := fun _ => "/tmp/t.txt",
    invoke := fun _ => InvokeResult.exited 0 "" }

/-- Witness for the amended C9 at the 100th attempt of a run. -/
theorem progress_on_attempt_index_witness :
    (ingestStep wEnvOk 100 99 wchunk initState).1.printed =
      initState.printed ++
        (if 0 = 0 then
           (if (99 + 1) % 100 = 0 then [progressLine (99 + 1) 100] else [])
         else [errorLine wchunk.chunk_id ""]) :=
  progress_on_attempt_index wEnvOk 100 99 wchunk initState 0 "" rfl

/-- A file-opening event of the sampler process. -/
inductive FSEvent
  | openRead (path : String)
  | openWrite (path : String)
  deriving DecidableEq

/-- The whole sampler run as a straight-line effectful program:
`open(input_csv)` and the CSV parse happen first (lines 17-20 of
`prepare_nq_data.py`); `readResult` is their outcome.  Only when they
succeed does the run reach `open(output_json, 'w')` (line 50); an
exception propagates immediately. -/
def samplerRun {RState : Type} (seedFn : Nat → RState)
    (sampleFn : RState → Nat → Nat → List Nat) (preState : RState)
    (input_csv output_json : String)
    (readResult : Except String (List SourceRecord))
    (sample_size : Option Nat) (random_seed : Nat) :
    List FSEvent × Except String (List Chunk) :=
  match readResult with
  | Except.error e => ([FSEvent.openRead input_csv], Except.error e)
  | Except.ok all_rows =>
      ([FSEvent.openRead input_csv, FSEvent.openWrite output_json],
        Except.ok (prepare_natural_questions seedFn sampleFn preState all_rows sample_size random_seed))

/-- C10: if reading or parsing the input corpus fails, the run raises
without ever opening the output path: no event opens `output_json` for
writing, so the failed run neither creates nor modifies a file there. -/
theorem no_output_on_read_failure {RState : Type} (seedFn : Nat → RState)
    (sampleFn : RState → Nat → Nat → List Nat) (preState : RState)
    (input_csv output_json : String)
    (readResult : Except String (List SourceRecord))
    (sample_size : Option Nat) (random_seed : Nat) (e : String)
    (h : readResult = Except.error e) :
    FSEvent.openWrite output_json ∉
      (samplerRun seedFn sampleFn preState input_csv output_json readResult sample_size random_seed).1 ∧
    (samplerRun seedFn sampleFn preState input_csv output_json readResult sample_size random_seed).2
      = Except.error e := by
  subst h
  constructor
  · intro hmem
    simp [samplerRun] at hmem
  · rfl

/-- Witness for C10 at a concrete failing read. -/
theorem no_output_on_read_failure_witness :
    FSEvent.openWrite "out.json" ∉
      (samplerRun (fun _ => ()) (fun _ _ _ => []) () "in.csv" "out.json"
        (Except.error "missing input") none 42).1 ∧
    (samplerRun (fun _ => ()) (fun _ _ _ => []) () "in.csv" "out.json"
        (Except.error "missing input") none 42).2 = Except.error "missing input" :=
  no_output_on_read_failure (fun _ => ()) (fun _ _ _ => []) () "in.csv" "out.json"
    (Except.error "missing input") none 42 "missing input" rfl
